import Mathlib

set_option maxHeartbeats 1000000

/-!
Verification of the offline/auto-mining accrual engine of the miner backend.

The definitions below are a shallow embedding of the TypeScript source:

* energy ledger and player mutators: src/backend/src/models/PlayerData.model.ts
  (consumeEnergy, recoverEnergy, calculateEnergyRecovery, autoRecoverEnergy,
  addExperience, addCoins, incrementMiningCount, the beforeUpdate hook),
* reward roll: Scene.calculateMiningReward, Scene.calculateItemDrops,
  Scene.generateItemName, Scene.calculateItemValue (src/unnamed/part_004),
* accrual session: OfflineMiningSession.calculateOfflineRewards,
  applyOfflineRewards, stopSession, startSession (src/unnamed/part_002),
* coordinator: GameService.startOfflineMining, stopOfflineMining,
  getOfflineMiningInfo (src/unnamed/part_001),
* configuration constants: game.config.ts (src/unnamed/part_005) with the
  documented environment-variable defaults.

Modelling conventions. Timestamps are integers (milliseconds since epoch, as
produced by Date.getTime). JavaScript number arithmetic on the small game
quantities is modelled exactly: Math.floor(a / b) on integers is Int.fdiv, and
each Math.floor of a product with a decimal constant is rewritten as an exact
integer floor division (for example floor(c * 1.05) is Int.fdiv (c * 21) 20);
every such rewriting is recorded in the doc comment of the definition that uses
it. Math.random() returns a double of the form k / 2 ^ 53 with
0 ≤ k < 2 ^ 53; the random source is therefore an explicit stream of integer
numerators k over the fixed denominator RAND_DEN = 2 ^ 53, threaded through
every computation that consumes randomness, and floor(q * n) for a draw
q = k / RAND_DEN is the exact Int.fdiv (k * n) RAND_DEN. A fallible operation
returns an Option.
-/

namespace Miner

/-! ### Configuration constants (game.config.ts, env defaults) -/

/-- GAME_CONFIG.ENERGY.RECOVERY_INTERVAL: default 300000 ms (5 minutes). -/
def RECOVERY_INTERVAL : Int := 300000

/-- GAME_CONFIG.ENERGY.RECOVERY_AMOUNT: 1 energy per interval. -/
def RECOVERY_AMOUNT : Int := 1

/-- The auto-mining cycle interval in milliseconds.
OfflineMiningSession.calculateOfflineRewards reads the field
GAME_CONFIG.AUTO_MINING.MINING_INTERVAL; the configuration object declares the
auto-mining interval under the key INTERVAL with default 10000 ms (the source
property name is a slip that TypeScript rejects at compile time). We embed the
declared constant. -/
def MINING_INTERVAL : Int := 10000

/-- GAME_CONFIG.AUTO_MINING.MIN_LEVEL_REQUIRED: level 5 unlocks auto mining. -/
def MIN_LEVEL_REQUIRED : Int := 5

/-- GAME_CONFIG.PLAYER.MAX_LEVEL. -/
def MAX_LEVEL : Int := 100

/-- GAME_CONFIG.LEVEL.BASE_EXP. -/
def BASE_EXP : Int := 100

/-- The denominator of the grid of doubles returned by Math.random:
every draw is k / RAND_DEN with 0 ≤ k < RAND_DEN. -/
def RAND_DEN : Int := 2 ^ 53

/-! ### Random source -/

/-- A deterministic stream of random draws with a current position; the value
at each position is the integer numerator k of the draw k / RAND_DEN. -/
structure Rng where
  f : Nat → Int
  pos : Nat

/-- Take the next draw (its numerator over RAND_DEN) from the stream. -/
def Rng.next (r : Rng) : Int × Rng :=
  (r.f r.pos, { r with pos := r.pos + 1 })

/-- Math.floor(q * n) for the draw q = k / RAND_DEN: exactly
Int.fdiv (k * n) RAND_DEN. -/
def floorRand (k n : Int) : Int := Int.fdiv (k * n) RAND_DEN

/-! ### Scene (Scene.model.ts) -/

/-- The scene fields used by the accrual engine. -/
structure Scene where
  name : String
  required_level : Int
  energy_cost : Int
  base_coins_min : Int
  base_coins_max : Int
  base_experience : Int
  is_active : Bool
deriving Repr, DecidableEq

/-- Scene.isAccessibleByPlayer. -/
def Scene.isAccessibleByPlayer (s : Scene) (playerLevel : Int) : Bool :=
  s.is_active && decide (s.required_level ≤ playerLevel)

/-- One dropped item (name, rarity, value). -/
structure MiningItem where
  name : String
  rarity : String
  value : Int
deriving Repr, DecidableEq

/-- Rarity tiers with drop rates in per-mille, in the iteration order of
Object.entries(GAME_CONFIG.RARITY): COMMON 0.6, UNCOMMON 0.25, RARE 0.12,
EPIC 0.025, LEGENDARY 0.005. -/
def RARITY_TIERS : List (String × Int) :=
  [("COMMON", 600), ("UNCOMMON", 250), ("RARE", 120), ("EPIC", 25),
   ("LEGENDARY", 5)]

/-- The drop check random ≤ dropRate of Scene.calculateItemDrops for the draw
k / RAND_DEN against the rate permille / 1000, by exact cross-multiplication. -/
def dropHits (k permille : Int) : Bool :=
  decide (k * 1000 ≤ permille * RAND_DEN)

/-- The per-scene item name table of Scene.generateItemName, with the
fallback to the first table for unknown scene names. -/
def sceneItemNames (sceneName : String) : List String :=
  if sceneName = "新手矿洞" then ["铜矿石", "铁矿石", "煤炭", "石英"]
  else if sceneName = "深层矿井" then ["银矿石", "金矿石", "宝石", "水晶"]
  else if sceneName = "古老遗迹" then ["古代硬币", "神秘符文", "魔法水晶", "远古宝石"]
  else if sceneName = "龙族宝库" then ["龙鳞", "龙血石", "传说宝石", "神器碎片"]
  else if sceneName = "时空裂缝" then ["时间碎片", "空间宝石", "维度水晶", "永恒之石"]
  else ["铜矿石", "铁矿石", "煤炭", "石英"]

/-- The rarity name table of Scene.generateItemName, with the fallback to
the COMMON table for unknown rarities. -/
def rarityNameTable (rarity : String) : List String :=
  if rarity = "COMMON" then ["普通的", "常见的", "基础的"]
  else if rarity = "UNCOMMON" then ["优质的", "精良的", "改良的"]
  else if rarity = "RARE" then ["稀有的", "珍贵的", "精制的"]
  else if rarity = "EPIC" then ["史诗的", "传奇的", "完美的"]
  else if rarity = "LEGENDARY" then ["传说的", "神话的", "至尊的"]
  else ["普通的", "常见的", "基础的"]

/-- Scene.generateItemName: one draw selects the base item by
Math.floor(random * length), one the rarity qualifier; the two are
concatenated (qualifier first). -/
def generateItemName (sceneName rarity : String) (rng : Rng) : String × Rng :=
  let itemTable := sceneItemNames sceneName
  let qualTable := rarityNameTable rarity
  let (k1, rng1) := rng.next
  let (k2, rng2) := rng1.next
  let randomItem := itemTable.getD (floorRand k1 itemTable.length).toNat ""
  let randomQual := qualTable.getD (floorRand k2 qualTable.length).toNat ""
  (randomQual ++ randomItem, rng2)

/-- The rarity multipliers of Scene.calculateItemValue. -/
def rarityMultiplier (rarity : String) : Int :=
  if rarity = "COMMON" then 1
  else if rarity = "UNCOMMON" then 2
  else if rarity = "RARE" then 5
  else if rarity = "EPIC" then 10
  else if rarity = "LEGENDARY" then 25
  else 1

/-- Scene.calculateItemValue:
floor(base_coins_min * multiplier * (0.8 + random * 0.4)); with the draw
k / RAND_DEN this is exactly
Int.fdiv (base * mult * (4 * RAND_DEN + 2 * k)) (5 * RAND_DEN). -/
def calculateItemValue (scene : Scene) (rarity : String) (rng : Rng) : Int × Rng :=
  let (k, rng1) := rng.next
  (Int.fdiv (scene.base_coins_min * rarityMultiplier rarity * (4 * RAND_DEN + 2 * k))
    (5 * RAND_DEN), rng1)

/-- Scene.calculateItemDrops: every rarity tier is rolled independently, in
table order; a tier drops when its draw is at most its drop rate. -/
def calculateItemDrops (scene : Scene) (rng : Rng) : List MiningItem × Rng :=
  RARITY_TIERS.foldl
    (fun acc tier =>
      let (items, rng1) := acc
      let (k, rng2) := rng1.next
      if dropHits k tier.2 then
        let (nm, rng3) := generateItemName scene.name tier.1 rng2
        let (v, rng4) := calculateItemValue scene tier.1 rng3
        (items ++ [{ name := nm, rarity := tier.1.toLower, value := v }], rng4)
      else (items, rng2))
    ([], rng)

/-- One mining-cycle outcome. -/
structure Reward where
  coins : Int
  experience : Int
  items : List MiningItem
deriving Repr, DecidableEq

/-- The level-bonus scaling floor(c * (1 + d * 0.05)) of
Scene.calculateMiningReward: exactly Int.fdiv (c * (20 + d)) 20. -/
def applyLevelBonus (c d : Int) : Int := Int.fdiv (c * (20 + d)) 20

/-- The extra-bonus scaling floor(c * 1.2) of Scene.calculateMiningReward:
exactly Int.fdiv (c * 6) 5. -/
def applyExtraBonus (c : Int) : Int := Int.fdiv (c * 6) 5

/-- Scene.calculateMiningReward: a uniform coin roll
Math.floor(random * (base_coins_max - base_coins_min + 1)) + base_coins_min,
the fixed base experience, both scaled by the level bonus
1 + (playerLevel - required_level) * 0.05 and floored, then by 1.2 and floored
again when hasBonus, plus the item drops. -/
def calculateMiningReward (scene : Scene) (playerLevel : Int) (hasBonus : Bool)
    (rng : Rng) : Reward × Rng :=
  let (k, rng1) := rng.next
  let coins0 : Int :=
    floorRand k (scene.base_coins_max - scene.base_coins_min + 1) + scene.base_coins_min
  let d : Int := playerLevel - scene.required_level
  let coins1 : Int := applyLevelBonus coins0 d
  let experience1 : Int := applyLevelBonus scene.base_experience d
  let coins2 : Int := if hasBonus then applyExtraBonus coins1 else coins1
  let experience2 : Int := if hasBonus then applyExtraBonus experience1 else experience1
  let (items, rng2) := calculateItemDrops scene rng1
  ({ coins := coins2, experience := experience2, items := items }, rng2)

/-! ### Player (PlayerData.model.ts) -/

/-- The PlayerData row fields used by the engine. -/
structure Player where
  level : Int
  experience : Int
  coins : Int
  current_energy : Int
  max_energy : Int
  last_energy_update : Int
  total_mining_count : Int
  total_coins_earned : Int
  total_experience_gained : Int
  highest_level_reached : Int
deriving Repr, DecidableEq

/-- The beforeUpdate hook of PlayerDataModel: clamp current_energy to
max_energy and level to MAX_LEVEL; it runs on every update() call. -/
def applyUpdateHook (p : Player) : Player :=
  let p1 := if p.max_energy < p.current_energy
            then { p with current_energy := p.max_energy } else p
  if MAX_LEVEL < p1.level then { p1 with level := MAX_LEVEL } else p1

/-- PlayerData.hasEnoughEnergy. -/
def hasEnoughEnergy (p : Player) (requiredEnergy : Int) : Bool :=
  decide (requiredEnergy ≤ p.current_energy)

/-- PlayerData.consumeEnergy at time now: fails (none) without enough energy;
otherwise decrements current_energy and sets last_energy_update to now
(the update() call runs the beforeUpdate hook). -/
def consumeEnergy (p : Player) (amount : Int) (now : Int) : Option Player :=
  if hasEnoughEnergy p amount then
    some (applyUpdateHook
      { p with current_energy := p.current_energy - amount, last_energy_update := now })
  else none

/-- PlayerData.recoverEnergy at time now: current_energy becomes
min(current_energy + amount, max_energy) and last_energy_update becomes now. -/
def recoverEnergy (p : Player) (amount : Int) (now : Int) : Player :=
  applyUpdateHook
    { p with current_energy := min (p.current_energy + amount) p.max_energy,
             last_energy_update := now }

/-- PlayerData.calculateEnergyRecovery at time now:
Math.floor((now - last_energy_update) / RECOVERY_INTERVAL) * RECOVERY_AMOUNT. -/
def calculateEnergyRecovery (p : Player) (now : Int) : Int :=
  Int.fdiv (now - p.last_energy_update) RECOVERY_INTERVAL * RECOVERY_AMOUNT

/-- PlayerData.autoRecoverEnergy at time now: recover only when the computed
amount is positive and current energy is below the maximum; returns the
recovered amount. -/
def autoRecoverEnergy (p : Player) (now : Int) : Player × Int :=
  let recoveryAmount := calculateEnergyRecovery p now
  if 0 < recoveryAmount ∧ p.current_energy < p.max_energy then
    (recoverEnergy p recoveryAmount now, recoveryAmount)
  else (p, 0)

/-- GAME_CONFIG.LEVEL.getRequiredExp: Math.floor(BASE_EXP * 1.5 ^ (level - 1)),
exactly Int.fdiv (BASE_EXP * 3 ^ e) (2 ^ e) with e = level - 1; levels are at
least 1 everywhere in the data model, so the exponent is taken in Nat. -/
def getRequiredExp (level : Int) : Int :=
  Int.fdiv (BASE_EXP * 3 ^ (level - 1).toNat) (2 ^ (level - 1).toNat)

/-- The while loop of PlayerData.addExperience: consume experience while the
next level is affordable and below MAX_LEVEL. The fuel bounds the iteration
count; MAX_LEVEL - startLevel steps always suffice because the level strictly
increases and the loop stops at MAX_LEVEL. -/
def levelLoop : Nat → Int → Int → Int × Int
  | 0, lvl, rem => (lvl, rem)
  | fuel + 1, lvl, rem =>
    if getRequiredExp lvl ≤ rem ∧ lvl < MAX_LEVEL then
      levelLoop fuel (lvl + 1) (rem - getRequiredExp lvl)
    else (lvl, rem)

/-- The level-up summary returned by PlayerData.addExperience. -/
structure LevelUpResult where
  leveledUp : Bool
  newLevel : Option Int
  coinsReward : Option Int
deriving Repr, DecidableEq

/-- PlayerData.addExperience: add experience, recompute the level, and on
level-up award 50 coins per level gained. -/
def addExperience (p : Player) (amount : Int) : Player × LevelUpResult :=
  let oldLevel := p.level
  let newExperience := p.experience + amount
  let (newLevel, _) := levelLoop (MAX_LEVEL - oldLevel).toNat oldLevel newExperience
  if oldLevel < newLevel then
    let levelUpReward := (newLevel - oldLevel) * 50
    (applyUpdateHook
      { p with experience := newExperience,
               total_experience_gained := p.total_experience_gained + amount,
               level := newLevel,
               highest_level_reached := max p.highest_level_reached newLevel,
               coins := p.coins + levelUpReward,
               total_coins_earned := p.total_coins_earned + levelUpReward },
     { leveledUp := true, newLevel := some newLevel, coinsReward := some levelUpReward })
  else
    (applyUpdateHook
      { p with experience := newExperience,
               total_experience_gained := p.total_experience_gained + amount },
     { leveledUp := false, newLevel := none, coinsReward := none })

/-- PlayerData.addCoins (increment calls bypass hooks). -/
def addCoins (p : Player) (amount : Int) : Player :=
  { p with coins := p.coins + amount,
           total_coins_earned := p.total_coins_earned + amount }

/-- PlayerData.incrementMiningCount. -/
def incrementMiningCount (p : Player) : Player :=
  { p with total_mining_count := p.total_mining_count + 1 }

/-- PlayerData.isAutoMiningUnlocked. -/
def isAutoMiningUnlocked (p : Player) : Bool :=
  decide (MIN_LEVEL_REQUIRED ≤ p.level)

/-- Shop purchase path raising max_energy (shop.service.ts, consumable with
max_energy_increase): a plain update of max_energy, through the hook. -/
def raiseMaxEnergy (p : Player) (delta : Int) : Player :=
  applyUpdateHook { p with max_energy := p.max_energy + delta }

/-! ### Energy ledger as a state machine

The energy operations named by the spec, with their actual call-site argument
domains (all energy amounts at call sites are non-negative integers). -/

/-- One energy operation: reconcile is autoRecoverEnergy, consume is
consumeEnergy, raiseMax is the shop max_energy increase, restore is the shop
potion path recoverEnergy(min(energy_restore, max_energy - current_energy)). -/
inductive EnergyOp
  | reconcile (now : Int)
  | consume (amount : Nat) (now : Int)
  | raiseMax (delta : Nat)
  | restore (amount : Nat) (now : Int)
deriving Repr, DecidableEq

/-- Apply one energy operation; a failed consume leaves the row untouched. -/
def energyStep (p : Player) : EnergyOp → Player
  | .reconcile now => (autoRecoverEnergy p now).1
  | .consume amount now => (consumeEnergy p (amount : Int) now).getD p
  | .raiseMax delta => raiseMaxEnergy p (delta : Int)
  | .restore amount now =>
    recoverEnergy p (min (amount : Int) (p.max_energy - p.current_energy)) now

/-- Apply a sequence of energy operations in order. -/
def runEnergyOps (p : Player) (ops : List EnergyOp) : Player :=
  ops.foldl energyStep p

/-- The energy invariant of the data model: 0 ≤ current_energy ≤ max_energy. -/
def ValidEnergy (p : Player) : Prop :=
  0 ≤ p.current_energy ∧ p.current_energy ≤ p.max_energy

instance (p : Player) : Decidable (ValidEnergy p) := by
  unfold ValidEnergy; infer_instance

/-! ### Accrual session (OfflineMiningSession.model.ts) -/

/-- The offline mining session row; items_found is stored as JSON text in the
database and modelled as the decoded list. -/
structure Session where
  start_time : Int
  end_time : Option Int
  is_active : Bool
  total_duration : Int
  energy_consumed : Int
  coins_earned : Int
  experience_gained : Int
  mining_cycles : Int
  items_found : List MiningItem
  bonus_applied : Bool
  last_calculation : Int
deriving Repr, DecidableEq

/-- OfflineMiningSession.getSessionDuration: end_time (or now) minus start. -/
def getSessionDuration (s : Session) (now : Int) : Int :=
  (s.end_time.getD now) - s.start_time

/-- OfflineMiningSession.getMiningEfficiency:
Math.round(totalValue / (total_duration / 3600000)) with totalValue the
accumulated coins plus item values, and 0 for a nonpositive duration.
Math.round(x) is floor(x + 1/2); for duration d > 0 the whole expression is
exactly Int.fdiv (7200000 * totalValue + d) (2 * d). -/
def getMiningEfficiency (s : Session) : Int :=
  if s.total_duration ≤ 0 then 0
  else
    let totalValue := s.coins_earned + (s.items_found.map MiningItem.value).sum
    Int.fdiv (7200000 * totalValue + s.total_duration) (2 * s.total_duration)

/-- The value returned by OfflineMiningSession.calculateOfflineRewards. -/
structure OfflineRewards where
  cycles : Int
  coins : Int
  experience : Int
  energy : Int
  items : List MiningItem
deriving Repr, DecidableEq

/-- The zero delta returned when no cycle can run. -/
def zeroRewards : OfflineRewards :=
  { cycles := 0, coins := 0, experience := 0, energy := 0, items := [] }

/-- The reward-roll loop of calculateOfflineRewards: actualCycles independent
calls of Scene.calculateMiningReward, summing coins and experience and
concatenating items in order. -/
def rollCycles : Nat → Session → Player → Scene → Rng →
    (Int × Int × List MiningItem) × Rng
  | 0, _, _, _, rng => ((0, 0, []), rng)
  | n + 1, s, p, scene, rng =>
    let (reward, rng1) := calculateMiningReward scene p.level s.bonus_applied rng
    let (rest, rng2) := rollCycles n s p scene rng1
    ((reward.coins + rest.1, reward.experience + rest.2.1,
      reward.items ++ rest.2.2), rng2)

/-- OfflineMiningSession.calculateOfflineRewards at time now: replay
min(possibleCycles, affordableCycles) cycles, where possibleCycles floors the
elapsed time since last_calculation by the cycle interval and affordableCycles
floors the player's current energy by the scene's energy cost; a nonpositive
count yields the zero delta. Pure: mutates nothing. -/
def calculateOfflineRewards (s : Session) (p : Player) (scene : Scene)
    (now : Int) (rng : Rng) : OfflineRewards × Rng :=
  let timeSinceLastCalculation := now - s.last_calculation
  let possibleCycles := Int.fdiv timeSinceLastCalculation MINING_INTERVAL
  if possibleCycles ≤ 0 then (zeroRewards, rng)
  else
    let energyPerCycle := scene.energy_cost
    let maxCyclesByEnergy := Int.fdiv p.current_energy energyPerCycle
    let actualCycles := min possibleCycles maxCyclesByEnergy
    if actualCycles ≤ 0 then (zeroRewards, rng)
    else
      let totalEnergy := actualCycles * energyPerCycle
      let (acc, rng1) := rollCycles actualCycles.toNat s p scene rng
      ({ cycles := actualCycles, coins := acc.1, experience := acc.2.1,
         energy := totalEnergy, items := acc.2.2 }, rng1)

/-- OfflineMiningSession.applyOfflineRewards at time now: compute the delta;
when it has cycles, add it to the session's accumulated fields, advance
last_calculation to now, and apply it to the player (consumeEnergy, addCoins,
addExperience, incrementMiningCount); a zero delta changes nothing. -/
def applyOfflineRewards (s : Session) (p : Player) (scene : Scene) (now : Int)
    (rng : Rng) : Session × Player × OfflineRewards × Rng :=
  let (rewards, rng1) := calculateOfflineRewards s p scene now rng
  if rewards.cycles ≤ 0 then (s, p, rewards, rng1)
  else
    let s1 : Session :=
      { s with mining_cycles := s.mining_cycles + rewards.cycles,
               coins_earned := s.coins_earned + rewards.coins,
               experience_gained := s.experience_gained + rewards.experience,
               energy_consumed := s.energy_consumed + rewards.energy,
               items_found := s.items_found ++ rewards.items,
               last_calculation := now }
    let p1 := (consumeEnergy p rewards.energy now).getD p
    let p2 := addCoins p1 rewards.coins
    let (p3, _) := addExperience p2 rewards.experience
    let p4 := incrementMiningCount p3
    (s1, p4, rewards, rng1)

/-- OfflineMiningSession.stopSession at time now: deactivate, set end_time and
total_duration (getSessionDuration is evaluated before end_time is stored, so
it measures against now). -/
def stopSession (s : Session) (now : Int) : Session :=
  { s with is_active := false, end_time := some now,
           total_duration := getSessionDuration s now }

/-- OfflineMiningSession.startSession at time now: a fresh active session with
start_time = last_calculation = now and zeroed accumulators. -/
def startSession (now : Int) : Session :=
  { start_time := now, end_time := none, is_active := true, total_duration := 0,
    energy_consumed := 0, coins_earned := 0, experience_gained := 0,
    mining_cycles := 0, items_found := [], bonus_applied := false,
    last_calculation := now }

/-! ### Session coordinator (GameService, src/unnamed/part_001)

The world holds one player, the scene the player mines, and at most one
session; the database enforces at most one active session per player. -/

/-- The state visible to GameService for one player. -/
structure World where
  player : Player
  scene : Scene
  session : Option Session
deriving Repr, DecidableEq

/-- OfflineMiningSession.getActiveSession: the session when it is active. -/
def getActiveSession (w : World) : Option Session :=
  match w.session with
  | some s => if s.is_active then some s else none
  | none => none

/-- The outcome of GameService.startOfflineMining. -/
inductive StartOutcome
  | started
  | alreadyActive
  | levelTooLow
  | sceneLocked
  | insufficientEnergy
deriving Repr, DecidableEq

/-- GameService.startOfflineMining at time now: reject when a session is
already active, auto mining is locked, the scene is inaccessible, or energy
is below the scene's cost; otherwise consume one cycle's energy cost and
create the session. -/
def startOfflineMining (w : World) (now : Int) : World × StartOutcome :=
  match getActiveSession w with
  | some _ => (w, .alreadyActive)
  | none =>
    if ¬ isAutoMiningUnlocked w.player then (w, .levelTooLow)
    else if ¬ w.scene.isAccessibleByPlayer w.player.level then (w, .sceneLocked)
    else if ¬ hasEnoughEnergy w.player w.scene.energy_cost then
      (w, .insufficientEnergy)
    else
      let p1 := (consumeEnergy w.player w.scene.energy_cost now).getD w.player
      ({ w with player := p1, session := some (startSession now) }, .started)

/-- The rewards object returned by GameService.stopOfflineMining. -/
structure StopRewards where
  experience : Int
  coins : Int
  items : List MiningItem
  duration : Int
  efficiency : Int
deriving Repr, DecidableEq

/-- GameService.stopOfflineMining at time now: with no active session, fail
and change nothing; otherwise apply the offline rewards (one mutating replay),
stop the session, and return the replay delta together with the stopped
session's duration and efficiency. -/
def stopOfflineMining (w : World) (now : Int) (rng : Rng) :
    World × Option StopRewards × Rng :=
  match getActiveSession w with
  | none => (w, none, rng)
  | some s =>
    let (s1, p1, rewards, rng1) := applyOfflineRewards s w.player w.scene now rng
    let s2 := stopSession s1 now
    ({ w with player := p1, session := some s2 },
     some { experience := rewards.experience, coins := rewards.coins,
            items := rewards.items, duration := getSessionDuration s2 now,
            efficiency := getMiningEfficiency s2 }, rng1)

/-- The view returned by GameService.getOfflineMiningInfo. -/
structure OfflineInfo where
  isActive : Bool
  duration : Option Int
  estimatedExperience : Option Int
  estimatedCoins : Option Int
  estimatedItems : Option Nat
  canStart : Bool
deriving Repr, DecidableEq

/-- GameService.getOfflineMiningInfo at time now: with an active session,
report its duration and the estimate of calculateOfflineRewards; otherwise
report whether a session could start. The handler performs no update call, so
the world passes through unchanged. -/
def getOfflineMiningInfo (w : World) (now : Int) (rng : Rng) :
    World × OfflineInfo × Rng :=
  match getActiveSession w with
  | some s =>
    let duration := getSessionDuration s now
    let (est, rng1) := calculateOfflineRewards s w.player w.scene now rng
    (w, { isActive := true, duration := some duration,
          estimatedExperience := some est.experience,
          estimatedCoins := some est.coins,
          estimatedItems := some est.items.length, canStart := false }, rng1)
  | none =>
    (w, { isActive := false, duration := none, estimatedExperience := none,
          estimatedCoins := none, estimatedItems := none,
          canStart := isAutoMiningUnlocked w.player && hasEnoughEnergy w.player 1 },
     rng)

/-! ### Definitions modelled from the spec (for refinement comparison) -/

/-- Modelled from the spec: the claimed per-cycle coin formula
coins = floor(u * (1 + 0.05 * max(0, playerLevel - scene.unlockLevel))) for a
coin roll u, exactly Int.fdiv (u * (20 + max 0 d)) 20. -/
def specCycleCoins (scene : Scene) (playerLevel u : Int) : Int :=
  Int.fdiv (u * (20 + max 0 (playerLevel - scene.required_level))) 20

/-- Modelled from the spec: the claimed per-cycle experience formula,
scene.baseExperience scaled and floored by the same factor as the coins. -/
def specCycleExperience (scene : Scene) (playerLevel : Int) : Int :=
  Int.fdiv (scene.base_experience * (20 + max 0 (playerLevel - scene.required_level))) 20

/-! ### Concrete instances used in witnesses and counterexamples -/

/-- A fresh level-1 player with empty energy. -/
def pReg : Player :=
  { level := 1, experience := 0, coins := 0, current_energy := 0,
    max_energy := 100, last_energy_update := 0, total_mining_count := 0,
    total_coins_earned := 0, total_experience_gained := 0, highest_level_reached := 1 }

/-- A level-10 player with 50 of 100 energy. -/
def pMiner : Player :=
  { level := 10, experience := 0, coins := 0, current_energy := 50,
    max_energy := 100, last_energy_update := 0, total_mining_count := 0,
    total_coins_earned := 0, total_experience_gained := 0, highest_level_reached := 10 }

/-- A player with 5 of 10 energy, last reconciled at time 0. -/
def pCon : Player :=
  { level := 1, experience := 0, coins := 0, current_energy := 5,
    max_energy := 10, last_energy_update := 0, total_mining_count := 0,
    total_coins_earned := 0, total_experience_gained := 0, highest_level_reached := 1 }

/-- A basic scene with a degenerate coin range. -/
def scBasic : Scene :=
  { name := "新手矿洞", required_level := 1, energy_cost := 10,
    base_coins_min := 7, base_coins_max := 7, base_experience := 5, is_active := true }

/-- A scene with a two-value coin range. -/
def scRange : Scene :=
  { name := "新手矿洞", required_level := 1, energy_cost := 10,
    base_coins_min := 5, base_coins_max := 6, base_experience := 5, is_active := true }

/-- A scene unlocked only at level 10. -/
def scHigh : Scene :=
  { name := "古老遗迹", required_level := 10, energy_cost := 20,
    base_coins_min := 10, base_coins_max := 10, base_experience := 10, is_active := true }

/-- A session started (and last reconciled) at time 0. -/
def sesFresh : Session := startSession 0

/-- A session with rewards already accumulated by earlier reconciliations:
started at -50000 ms, last reconciled at 0 with 20 cycles, 100 coins, 50
experience and 200 energy already accumulated. -/
def sesAccum : Session :=
  { start_time := -50000, end_time := none, is_active := true, total_duration := 0,
    energy_consumed := 200, coins_earned := 100, experience_gained := 50,
    mining_cycles := 20, items_found := [], bonus_applied := false,
    last_calculation := 0 }

/-- A draw stream sitting just below 1 (no item ever drops). -/
def rngHi : Rng := { f := fun _ => RAND_DEN - 1, pos := 0 }

/-- The all-zero draw stream. -/
def rngZero : Rng := { f := fun _ => 0, pos := 0 }

/-- A draw stream that yields almost-1 draws except a zero at position 6. -/
def rngMix : Rng := { f := fun pos => if pos = 6 then 0 else RAND_DEN - 1, pos := 0 }

/-- A world with no session, ready to start one. -/
def wStart : World := { player := pMiner, scene := scBasic, session := none }

/-- A world holding the session with accumulated rewards. -/
def wStop : World := { player := pMiner, scene := scBasic, session := some sesAccum }

/-- A world with an active fresh session on the two-value coin scene. -/
def wPeek : World := { player := pMiner, scene := scRange, session := some sesFresh }

/-! ### Helper lemmas -/

theorem applyUpdateHook_last (p : Player) :
    (applyUpdateHook p).last_energy_update = p.last_energy_update := by
  simp only [applyUpdateHook]
  split <;> split <;> rfl

theorem applyUpdateHook_max (p : Player) :
    (applyUpdateHook p).max_energy = p.max_energy := by
  simp only [applyUpdateHook]
  split <;> split <;> rfl

theorem applyUpdateHook_current (p : Player) :
    (applyUpdateHook p).current_energy = min p.current_energy p.max_energy := by
  simp only [applyUpdateHook]
  split <;> split <;> simp_all <;> omega

theorem calculateOfflineRewards_nonpos (s : Session) (p : Player) (scene : Scene)
    (now : Int) (rng : Rng)
    (h : min (Int.fdiv (now - s.last_calculation) MINING_INTERVAL)
           (Int.fdiv p.current_energy scene.energy_cost) ≤ 0) :
    calculateOfflineRewards s p scene now rng = (zeroRewards, rng) := by
  simp only [calculateOfflineRewards]
  by_cases h1 : Int.fdiv (now - s.last_calculation) MINING_INTERVAL ≤ 0
  · rw [if_pos h1]
  · rw [if_neg h1, if_pos h]

theorem calculateOfflineRewards_pos (s : Session) (p : Player) (scene : Scene)
    (now : Int) (rng : Rng)
    (h : 0 < min (Int.fdiv (now - s.last_calculation) MINING_INTERVAL)
           (Int.fdiv p.current_energy scene.energy_cost)) :
    calculateOfflineRewards s p scene now rng =
      ({ cycles := min (Int.fdiv (now - s.last_calculation) MINING_INTERVAL)
                     (Int.fdiv p.current_energy scene.energy_cost),
         coins := (rollCycles (min (Int.fdiv (now - s.last_calculation) MINING_INTERVAL)
                     (Int.fdiv p.current_energy scene.energy_cost)).toNat s p scene rng).1.1,
         experience := (rollCycles (min (Int.fdiv (now - s.last_calculation) MINING_INTERVAL)
                     (Int.fdiv p.current_energy scene.energy_cost)).toNat s p scene rng).1.2.1,
         energy := min (Int.fdiv (now - s.last_calculation) MINING_INTERVAL)
                     (Int.fdiv p.current_energy scene.energy_cost) * scene.energy_cost,
         items := (rollCycles (min (Int.fdiv (now - s.last_calculation) MINING_INTERVAL)
                     (Int.fdiv p.current_energy scene.energy_cost)).toNat s p scene rng).1.2.2 },
       (rollCycles (min (Int.fdiv (now - s.last_calculation) MINING_INTERVAL)
                     (Int.fdiv p.current_energy scene.energy_cost)).toNat s p scene rng).2) := by
  have h1 : 0 < Int.fdiv (now - s.last_calculation) MINING_INTERVAL :=
    lt_of_lt_of_le h (min_le_left _ _)
  simp only [calculateOfflineRewards]
  rw [if_neg (not_le.mpr h1), if_neg (not_le.mpr h)]

theorem applyOfflineRewards_nonpos (s : Session) (p : Player) (scene : Scene)
    (now : Int) (rng : Rng)
    (h : min (Int.fdiv (now - s.last_calculation) MINING_INTERVAL)
           (Int.fdiv p.current_energy scene.energy_cost) ≤ 0) :
    applyOfflineRewards s p scene now rng = (s, p, zeroRewards, rng) := by
  simp only [applyOfflineRewards, calculateOfflineRewards_nonpos s p scene now rng h]
  rfl

theorem applyOfflineRewards_last_calculation_pos (s : Session) (p : Player)
    (scene : Scene) (now : Int) (rng : Rng)
    (h : 0 < min (Int.fdiv (now - s.last_calculation) MINING_INTERVAL)
           (Int.fdiv p.current_energy scene.energy_cost)) :
    (applyOfflineRewards s p scene now rng).1.last_calculation = now := by
  simp only [applyOfflineRewards, calculateOfflineRewards_pos s p scene now rng h]
  rw [if_neg (not_le.mpr h)]

/-! ### Claim theorems -/

/-- C2: for every active session, player, and query time, the replay
computation performs actualCycles = min(possibleCycles, affordableCycles),
with possibleCycles = floor(elapsedMs / MINING_INTERVAL) for the fixed global
cycle-interval constant and affordableCycles =
floor(current_energy / scene.energy_cost); when actualCycles ≤ 0 it returns a
zero delta and leaves the session and player unchanged, returning normally
rather than raising an error. -/
theorem c2_actual_cycles_min (s : Session) (p : Player) (scene : Scene)
    (now : Int) (rng : Rng) (_hcost : 0 < scene.energy_cost) :
    (0 < min (Int.fdiv (now - s.last_calculation) MINING_INTERVAL)
           (Int.fdiv p.current_energy scene.energy_cost) →
       (calculateOfflineRewards s p scene now rng).1.cycles =
         min (Int.fdiv (now - s.last_calculation) MINING_INTERVAL)
           (Int.fdiv p.current_energy scene.energy_cost))
    ∧ (min (Int.fdiv (now - s.last_calculation) MINING_INTERVAL)
           (Int.fdiv p.current_energy scene.energy_cost) ≤ 0 →
       calculateOfflineRewards s p scene now rng = (zeroRewards, rng)
       ∧ applyOfflineRewards s p scene now rng = (s, p, zeroRewards, rng)) := by
  constructor
  · intro h
    rw [calculateOfflineRewards_pos s p scene now rng h]
  · intro h
    exact ⟨calculateOfflineRewards_nonpos s p scene now rng h,
           applyOfflineRewards_nonpos s p scene now rng h⟩

/-- C1: replaying and applying twice at the same instant is idempotent: the
second applyOfflineRewards call returns a zero delta (zero cycles, coins,
experience, energy, no items) and leaves the session and player exactly as the
first call left them. -/
theorem c1_replay_idempotent (s : Session) (p : Player) (scene : Scene)
    (now : Int) (rng rng2 : Rng) (_hcost : 0 < scene.energy_cost) :
    applyOfflineRewards (applyOfflineRewards s p scene now rng).1
      (applyOfflineRewards s p scene now rng).2.1 scene now rng2 =
    ((applyOfflineRewards s p scene now rng).1,
     (applyOfflineRewards s p scene now rng).2.1, zeroRewards, rng2) := by
  by_cases hmin : min (Int.fdiv (now - s.last_calculation) MINING_INTERVAL)
      (Int.fdiv p.current_energy scene.energy_cost) ≤ 0
  · rw [applyOfflineRewards_nonpos s p scene now rng hmin]
    exact applyOfflineRewards_nonpos s p scene now rng2 hmin
  · push_neg at hmin
    have hlast := applyOfflineRewards_last_calculation_pos s p scene now rng hmin
    apply applyOfflineRewards_nonpos
    rw [hlast]
    simp only [sub_self, Int.zero_fdiv]
    exact le_trans (min_le_left _ _) (le_refl 0)

/-- C3: stopping twice applies rewards at most once: whatever the starting
world, after one stopOfflineMining call the second call fails (returns none,
the NoActiveSession outcome) and returns the world of the first call
unchanged, so the player's coins, experience, and energy are untouched by the
second call. -/
theorem c3_stop_exactly_once (w : World) (now now2 : Int) (rng rng2 : Rng) :
    stopOfflineMining (stopOfflineMining w now rng).1 now2 rng2 =
      ((stopOfflineMining w now rng).1, none, rng2) := by
  have h : getActiveSession (stopOfflineMining w now rng).1 = none := by
    rcases hw : getActiveSession w with _ | s
    · simp only [stopOfflineMining, hw]
    · simp only [stopOfflineMining, hw]
      simp [getActiveSession, stopSession]
  generalize (stopOfflineMining w now rng).1 = w1 at h ⊢
  simp only [stopOfflineMining, h]

/-- C1 witness: a concrete second replay at the same instant is a no-op. -/
theorem c1_replay_idempotent_witness :
    applyOfflineRewards (applyOfflineRewards sesFresh pMiner scBasic 10000 rngHi).1
      (applyOfflineRewards sesFresh pMiner scBasic 10000 rngHi).2.1 scBasic 10000 rngZero =
    ((applyOfflineRewards sesFresh pMiner scBasic 10000 rngHi).1,
     (applyOfflineRewards sesFresh pMiner scBasic 10000 rngHi).2.1, zeroRewards, rngZero) :=
  c1_replay_idempotent sesFresh pMiner scBasic 10000 rngHi rngZero (by decide)

/-- C2 witness: on a concrete input the replay count is
min(floor(10000 / 10000), floor(50 / 10)) = 1. -/
theorem c2_actual_cycles_min_witness :
    (calculateOfflineRewards sesFresh pMiner scBasic 10000 rngHi).1.cycles = 1 := by
  have h := (c2_actual_cycles_min sesFresh pMiner scBasic 10000 rngHi (by decide)).1 (by decide)
  rw [h]
  decide

/-! ### Energy field lemmas -/

theorem recoverEnergy_current (p : Player) (amount now : Int) :
    (recoverEnergy p amount now).current_energy =
      min (p.current_energy + amount) p.max_energy := by
  simp only [recoverEnergy, applyUpdateHook_current]
  omega

theorem recoverEnergy_last (p : Player) (amount now : Int) :
    (recoverEnergy p amount now).last_energy_update = now := by
  simp only [recoverEnergy, applyUpdateHook_last]

theorem recoverEnergy_max (p : Player) (amount now : Int) :
    (recoverEnergy p amount now).max_energy = p.max_energy := by
  simp only [recoverEnergy, applyUpdateHook_max]

theorem autoRecoverEnergy_current_eq (p : Player) (now : Int) :
    ((autoRecoverEnergy p now).1).current_energy =
      if 0 < calculateEnergyRecovery p now ∧ p.current_energy < p.max_energy
      then min (p.current_energy + calculateEnergyRecovery p now) p.max_energy
      else p.current_energy := by
  simp only [autoRecoverEnergy]
  split
  · simp only [recoverEnergy_current]
  · rfl

theorem autoRecoverEnergy_last_eq (p : Player) (now : Int) :
    ((autoRecoverEnergy p now).1).last_energy_update =
      if 0 < calculateEnergyRecovery p now ∧ p.current_energy < p.max_energy
      then now else p.last_energy_update := by
  simp only [autoRecoverEnergy]
  split
  · simp only [recoverEnergy_last]
  · rfl

theorem autoRecoverEnergy_max_eq (p : Player) (now : Int) :
    ((autoRecoverEnergy p now).1).max_energy = p.max_energy := by
  simp only [autoRecoverEnergy]
  split
  · simp only [recoverEnergy_max]
  · rfl

/-- C4 counterexample: the code sets last_energy_update to the reconciliation
time, discarding the fractional interval. Starting from energy 0 of 100 with
last_energy_update 0, reconciling at 450000 ms (1.5 intervals) and then at
600000 ms (2 intervals in total) recovers 1 energy, while a single
reconciliation at 600000 ms recovers 2; the claimed split-invariance fails. -/
theorem c4_counterexample :
    ((autoRecoverEnergy (autoRecoverEnergy pReg 450000).1 600000).1).current_energy = 1
    ∧ ((autoRecoverEnergy pReg 600000).1).current_energy = 2
    ∧ ((autoRecoverEnergy (autoRecoverEnergy pReg 450000).1 600000).1).current_energy ≠
        ((autoRecoverEnergy pReg 600000).1).current_energy := by
  decide

/-- C4 amended: reconciling twice yields the same current_energy as a single
reconciliation over the combined period when the first elapsed period is an
exact multiple of the recovery interval; in general recoverEnergy advances
last_energy_update to the reconciliation time, so the remainder of a partial
interval is discarded and a split reconciliation can under-recover. -/
theorem c4_reconcile_split_amended (p : Player) (t1 t2 : Int)
    (hdvd : RECOVERY_INTERVAL ∣ t1 - p.last_energy_update)
    (h1 : p.last_energy_update ≤ t1) (h2 : t1 ≤ t2) :
    ((autoRecoverEnergy (autoRecoverEnergy p t1).1 t2).1).current_energy =
      ((autoRecoverEnergy p t2).1).current_energy := by
  obtain ⟨k, hk⟩ := hdvd
  have hIne : RECOVERY_INTERVAL ≠ 0 := by norm_num [RECOVERY_INTERVAL]
  have hI0 : (0 : Int) ≤ RECOVERY_INTERVAL := by norm_num [RECOVERY_INTERVAL]
  have hk0 : 0 ≤ k := by
    by_contra hneg
    push_neg at hneg
    have : RECOVERY_INTERVAL * k < 0 := by
      apply mul_neg_of_pos_of_neg _ hneg
      norm_num [RECOVERY_INTERVAL]
    omega
  have hfd1raw : Int.fdiv (t1 - p.last_energy_update) RECOVERY_INTERVAL = k := by
    rw [hk]
    exact Int.mul_fdiv_cancel_left k hIne
  have hfd2raw : Int.fdiv (t2 - p.last_energy_update) RECOVERY_INTERVAL =
      Int.fdiv (t2 - t1) RECOVERY_INTERVAL + k := by
    have heq : t2 - p.last_energy_update = (t2 - t1) + RECOVERY_INTERVAL * k := by omega
    rw [heq, Int.fdiv_eq_ediv _ hI0, Int.add_mul_ediv_left _ k hIne,
      ← Int.fdiv_eq_ediv _ hI0]
  have hm2 : 0 ≤ Int.fdiv (t2 - t1) RECOVERY_INTERVAL :=
    Int.fdiv_nonneg (by omega) hI0
  simp only [autoRecoverEnergy_current_eq, autoRecoverEnergy_last_eq,
    autoRecoverEnergy_max_eq, calculateEnergyRecovery, RECOVERY_AMOUNT, mul_one,
    hfd1raw, hfd2raw]
  split_ifs <;> simp only [hfd2raw] at * <;> omega

/-- C4 witness: splitting two full intervals at an interval boundary recovers
the same energy as a single combined reconciliation. -/
theorem c4_reconcile_split_amended_witness :
    ((autoRecoverEnergy (autoRecoverEnergy pReg 300000).1 600000).1).current_energy =
      ((autoRecoverEnergy pReg 600000).1).current_energy :=
  c4_reconcile_split_amended pReg 300000 600000 (by decide) (by decide) (by decide)

/-- Every single energy operation preserves 0 ≤ current_energy ≤ max_energy. -/
theorem energyStep_valid (p : Player) (op : EnergyOp) (h : ValidEnergy p) :
    ValidEnergy (energyStep p op) := by
  obtain ⟨hlo, hhi⟩ := h
  rcases op with now | ⟨amount, now⟩ | delta | ⟨amount, now⟩
  · refine ⟨?_, ?_⟩ <;>
      simp only [energyStep, autoRecoverEnergy_current_eq, autoRecoverEnergy_max_eq] <;>
      split_ifs <;> omega
  · simp only [energyStep, consumeEnergy, hasEnoughEnergy]
    split
    · next hc =>
      simp only [decide_eq_true_eq] at hc
      refine ⟨?_, ?_⟩ <;>
        simp only [Option.getD_some, applyUpdateHook_current, applyUpdateHook_max] <;>
        omega
    · exact ⟨hlo, hhi⟩
  · refine ⟨?_, ?_⟩ <;>
      simp only [energyStep, raiseMaxEnergy, applyUpdateHook_current,
        applyUpdateHook_max] <;>
      omega
  · refine ⟨?_, ?_⟩ <;>
      simp only [energyStep, recoverEnergy_current, recoverEnergy_max] <;>
      omega

/-- C5: for every sequence of energy operations (reconcile, consume, raise
max, restore) starting from a valid state, 0 ≤ current_energy ≤ max_energy
holds after every operation (every prefix of operations is itself a
sequence, so the invariant holds at each intermediate state). -/
theorem c5_energy_invariant (p : Player) (ops : List EnergyOp)
    (h : ValidEnergy p) : ValidEnergy (runEnergyOps p ops) := by
  induction ops generalizing p with
  | nil => exact h
  | cons op rest ih =>
    exact ih (energyStep p op) (energyStep_valid p op h)

/-- C5 witness: a concrete mixed operation sequence preserves the invariant. -/
theorem c5_energy_invariant_witness :
    ValidEnergy (runEnergyOps pMiner
      [.reconcile 450000, .consume 5 450000, .raiseMax 20, .restore 10 500000,
       .consume 200 500000]) :=
  c5_energy_invariant pMiner
    [.reconcile 450000, .consume 5 450000, .raiseMax 20, .restore 10 500000,
     .consume 200 500000] (by decide)

/-- C6 counterexample: consumeEnergy also updates last_energy_update to the
consumption time (PlayerData.consumeEnergy performs
update(last_energy_update = new Date())), so the claim that consume leaves
the reconciliation timestamp unchanged fails: consuming 2 energy at time 7
from a player last reconciled at 0 stores timestamp 7. -/
theorem c6_counterexample :
    (consumeEnergy pCon 2 7).map Player.last_energy_update = some 7
    ∧ pCon.last_energy_update = 0
    ∧ (consumeEnergy pCon 2 7).map Player.last_energy_update ≠
        some pCon.last_energy_update := by
  decide

/-- C6 amended: consume succeeds exactly when the amount is at most the
current energy; on success it decrements current_energy by the amount and
sets last_energy_update to the consumption time; on failure it returns none
and the stored row is untouched. -/
theorem c6_consume_amended (p : Player) (amount now : Int)
    (h0 : 0 ≤ amount) (hval : p.current_energy ≤ p.max_energy) :
    (amount ≤ p.current_energy →
      ∃ p2, consumeEnergy p amount now = some p2
        ∧ p2.current_energy = p.current_energy - amount
        ∧ p2.last_energy_update = now)
    ∧ (p.current_energy < amount → consumeEnergy p amount now = none) := by
  constructor
  · intro hle
    have hsome : consumeEnergy p amount now = some (applyUpdateHook
        { p with current_energy := p.current_energy - amount,
                 last_energy_update := now }) := by
      rw [consumeEnergy, if_pos]
      simp only [hasEnoughEnergy, decide_eq_true_eq]
      exact hle
    refine ⟨_, hsome, ?_, ?_⟩
    · simp only [applyUpdateHook_current]
      omega
    · simp only [applyUpdateHook_last]
  · intro hlt
    rw [consumeEnergy, if_neg]
    simp only [hasEnoughEnergy, decide_eq_true_eq]
    omega

/-- C6 witness: consuming 2 of 5 energy at time 7 succeeds, leaving 3 energy
and timestamp 7. -/
theorem c6_consume_amended_witness :
    ∃ p2, consumeEnergy pCon 2 7 = some p2
      ∧ p2.current_energy = 3 ∧ p2.last_energy_update = 7 := by
  obtain ⟨p2, he, hc, hl⟩ :=
    (c6_consume_amended pCon 2 7 (by decide) (by decide)).1 (by decide)
  refine ⟨p2, he, ?_, hl⟩
  rw [hc]
  decide

/-- Any failing startOfflineMining call leaves the world untouched. -/
theorem startOfflineMining_failure_frame (w : World) (t : Int)
    (hne : (startOfflineMining w t).2 ≠ StartOutcome.started) :
    (startOfflineMining w t).1 = w := by
  rcases hg : getActiveSession w with _ | s
  · simp only [startOfflineMining, hg] at hne ⊢
    split_ifs at hne ⊢ <;> first | rfl | exact absurd rfl hne
  · simp only [startOfflineMining, hg]

/-- C7 counterexample: a successful start does change the player's current
energy: it pre-deducts one cycle's energy cost (GameService.startOfflineMining
calls player.consumeEnergy(scene.energy_cost) before creating the session), so
starting with 50 energy on a cost-10 scene leaves 40, refuting the claim that
start leaves currentEnergy unchanged. -/
theorem c7_counterexample :
    (startOfflineMining wStart 5).2 = StartOutcome.started
    ∧ (startOfflineMining wStart 5).1.player.current_energy = 40
    ∧ wStart.player.current_energy = 50
    ∧ (startOfflineMining wStart 5).1.player.current_energy ≠
        wStart.player.current_energy := by
  decide

/-- C7 amended: when all preconditions hold (no active session, auto mining
unlocked, scene accessible, enough energy for one cycle), start succeeds and
creates an Active session with start_time = last_calculation = now, deducting
exactly one cycle's energy cost from the player up front (further energy is
deducted lazily per replayed cycle) and stamping the energy row with now;
when any precondition fails, start performs no mutation at all. -/
theorem c7_start_amended (w : World) (now : Int)
    (hactive : getActiveSession w = none)
    (hlvl : isAutoMiningUnlocked w.player = true)
    (hacc : w.scene.isAccessibleByPlayer w.player.level = true)
    (hen : hasEnoughEnergy w.player w.scene.energy_cost = true)
    (hcost : 0 ≤ w.scene.energy_cost)
    (hval : w.player.current_energy ≤ w.player.max_energy) :
    (startOfflineMining w now).2 = StartOutcome.started
    ∧ (startOfflineMining w now).1.session = some (startSession now)
    ∧ (startSession now).start_time = now
    ∧ (startSession now).last_calculation = now
    ∧ (startSession now).is_active = true
    ∧ (startOfflineMining w now).1.player.current_energy
        = w.player.current_energy - w.scene.energy_cost
    ∧ (startOfflineMining w now).1.player.last_energy_update = now
    ∧ ∀ w2 t, (startOfflineMining w2 t).2 ≠ StartOutcome.started →
        (startOfflineMining w2 t).1 = w2 := by
  have hmain : startOfflineMining w now =
      ({ w with
          player := applyUpdateHook
            { w.player with
                current_energy := w.player.current_energy - w.scene.energy_cost,
                last_energy_update := now },
          session := some (startSession now) }, .started) := by
    simp only [startOfflineMining, hactive, hlvl, hacc, hen, consumeEnergy,
      if_pos, not_true, ite_false, Option.getD_some]
  refine ⟨?_, ?_, rfl, rfl, rfl, ?_, ?_, startOfflineMining_failure_frame⟩
  · rw [hmain]
  · rw [hmain]
  · rw [hmain]
    simp only [applyUpdateHook_current]
    omega
  · rw [hmain]
    simp only [applyUpdateHook_last]

/-- C7 witness: the concrete successful start deducts the cost 10 from 50. -/
theorem c7_start_amended_witness :
    (startOfflineMining wStart 5).1.player.current_energy = 40 := by
  have h := c7_start_amended wStart 5 (by decide) (by decide) (by decide)
    (by decide) (by decide) (by decide)
  rw [h.2.2.2.2.2.1]
  decide

/-- C8: stopOfflineMining returns the delta of the final replay call, not the
whole session's accumulated rewards. In the world below the session has
already accumulated 100 coins over 20 earlier cycles; the final replay yields
10 more coins, the stored session total becomes 110, yet the returned rewards
carry only the final 10 coins, contradicting the repository's own
stop-response documentation (session_summary over the whole session) and the
unused getSessionSummary helper. -/
theorem c8_stop_returns_final_delta :
    ((stopOfflineMining wStop 10000 rngHi).2.1.map StopRewards.coins = some 10)
    ∧ ((stopOfflineMining wStop 10000 rngHi).1.session.map Session.coins_earned
        = some 110)
    ∧ ((stopOfflineMining wStop 10000 rngHi).2.1.map StopRewards.coins
        ≠ some (110 : Int)) := by
  decide

/-- C9 counterexample: two peeks with no time passing return different
estimates, because each getOfflineMiningInfo call rolls fresh randomness
through Scene.calculateMiningReward: with the stream below the first peek
estimates 8 coins and the immediately following peek estimates 7. -/
theorem c9_counterexample :
    ((getOfflineMiningInfo wPeek 10000 rngMix).2.1.estimatedCoins = some 8)
    ∧ ((getOfflineMiningInfo (getOfflineMiningInfo wPeek 10000 rngMix).1 10000
          (getOfflineMiningInfo wPeek 10000 rngMix).2.2).2.1.estimatedCoins
        = some 7)
    ∧ (getOfflineMiningInfo wPeek 10000 rngMix).2.1 ≠
        (getOfflineMiningInfo (getOfflineMiningInfo wPeek 10000 rngMix).1 10000
          (getOfflineMiningInfo wPeek 10000 rngMix).2.2).2.1 := by
  decide

/-- C9 amended: peek is non-mutating: getOfflineMiningInfo returns the world
unchanged (no session watermark advance, no energy consumption, no persistent
player change), and the estimated cycle count is independent of the random
draws, so it is the same on every immediate repetition; the coin, experience,
and item components of the estimate draw fresh randomness and may differ
between calls. -/
theorem c9_peek_amended (w : World) (now : Int) (rng rng2 : Rng) :
    (getOfflineMiningInfo w now rng).1 = w
    ∧ (∀ s, getActiveSession w = some s →
        (calculateOfflineRewards s w.player w.scene now rng).1.cycles =
          (calculateOfflineRewards s w.player w.scene now rng2).1.cycles) := by
  constructor
  · rcases h : getActiveSession w with _ | s <;>
      simp only [getOfflineMiningInfo, h]
  · intro s _
    by_cases hmin : min (Int.fdiv (now - s.last_calculation) MINING_INTERVAL)
        (Int.fdiv w.player.current_energy w.scene.energy_cost) ≤ 0
    · rw [calculateOfflineRewards_nonpos s w.player w.scene now rng hmin,
        calculateOfflineRewards_nonpos s w.player w.scene now rng2 hmin]
    · push_neg at hmin
      rw [calculateOfflineRewards_pos s w.player w.scene now rng hmin,
        calculateOfflineRewards_pos s w.player w.scene now rng2 hmin]

/-- C9 witness: the concrete peek leaves the world unchanged and two peeks
with different streams estimate the same cycle count. -/
theorem c9_peek_amended_witness :
    (getOfflineMiningInfo wPeek 10000 rngMix).1 = wPeek
    ∧ (calculateOfflineRewards sesFresh wPeek.player wPeek.scene 10000 rngMix).1.cycles =
        (calculateOfflineRewards sesFresh wPeek.player wPeek.scene 10000 rngHi).1.cycles :=
  ⟨(c9_peek_amended wPeek 10000 rngMix rngHi).1,
   (c9_peek_amended wPeek 10000 rngMix rngHi).2 sesFresh (by decide)⟩

/-- C10 counterexample: the code's level bonus is not clamped at zero: at
player level 1 in a scene unlocked at level 10 with a fixed coin roll u = 10,
the code computes floor(10 * (1 + (1 - 10) * 0.05)) = 5 while the claimed
formula with max(0, levelDelta) gives 10. -/
theorem c10_counterexample :
    (calculateMiningReward scHigh 1 false rngZero).1.coins = 5
    ∧ specCycleCoins scHigh 1 10 = 10
    ∧ (calculateMiningReward scHigh 1 false rngZero).1.coins ≠
        specCycleCoins scHigh 1 10 := by
  decide

/-- C10 amended: for playerLevel at or above the scene's unlock level (the
only case reachable through the service layer, which checks accessibility
first), one no-bonus reward roll produces exactly the claimed formula: coins =
floor(u * (1 + 0.05 * max(0, playerLevel - unlockLevel))) with u the uniform
roll floor(q * (coinsMax - coinsMin + 1)) + coinsMin lying in
[coinsMin, coinsMax], and experience = baseExperience scaled and floored by
the identical factor; below the unlock level the code instead applies the
unclamped factor. -/
theorem c10_roll_amended (scene : Scene) (lvl : Int) (rng : Rng)
    (hlvl : scene.required_level ≤ lvl)
    (hrange : scene.base_coins_min ≤ scene.base_coins_max)
    (hk0 : 0 ≤ rng.f rng.pos) (hk1 : rng.f rng.pos < RAND_DEN) :
    (calculateMiningReward scene lvl false rng).1.coins =
      specCycleCoins scene lvl
        (floorRand (rng.f rng.pos)
          (scene.base_coins_max - scene.base_coins_min + 1) + scene.base_coins_min)
    ∧ (calculateMiningReward scene lvl false rng).1.experience =
        specCycleExperience scene lvl
    ∧ scene.base_coins_min ≤
        floorRand (rng.f rng.pos)
          (scene.base_coins_max - scene.base_coins_min + 1) + scene.base_coins_min
    ∧ floorRand (rng.f rng.pos)
          (scene.base_coins_max - scene.base_coins_min + 1) + scene.base_coins_min
        ≤ scene.base_coins_max := by
  have hmax : max 0 (lvl - scene.required_level) = lvl - scene.required_level :=
    max_eq_right (by omega)
  have hR : (0 : Int) < RAND_DEN := by norm_num [RAND_DEN]
  have hn : (0 : Int) < scene.base_coins_max - scene.base_coins_min + 1 := by omega
  have hlow : 0 ≤ floorRand (rng.f rng.pos)
      (scene.base_coins_max - scene.base_coins_min + 1) :=
    Int.fdiv_nonneg (mul_nonneg hk0 (by omega)) (le_of_lt hR)
  have hup : floorRand (rng.f rng.pos)
      (scene.base_coins_max - scene.base_coins_min + 1) ≤
      scene.base_coins_max - scene.base_coins_min := by
    rw [floorRand, Int.fdiv_eq_ediv _ (le_of_lt hR)]
    have hlt : rng.f rng.pos * (scene.base_coins_max - scene.base_coins_min + 1) <
        (scene.base_coins_max - scene.base_coins_min + 1) * RAND_DEN := by
      nlinarith [mul_pos (by omega : (0:Int) < RAND_DEN - rng.f rng.pos) hn]
    have := (Int.ediv_lt_iff_lt_mul hR).mpr hlt
    omega
  have hcoins : (calculateMiningReward scene lvl false rng).1.coins =
      applyLevelBonus
        (floorRand (rng.f rng.pos)
          (scene.base_coins_max - scene.base_coins_min + 1) + scene.base_coins_min)
        (lvl - scene.required_level) := rfl
  have hexp : (calculateMiningReward scene lvl false rng).1.experience =
      applyLevelBonus scene.base_experience (lvl - scene.required_level) := rfl
  refine ⟨?_, ?_, by omega, by omega⟩
  · rw [hcoins]
    simp only [specCycleCoins, applyLevelBonus, hmax]
  · rw [hexp]
    simp only [specCycleExperience, applyLevelBonus, hmax]

/-- C10 witness: at the unlock level the code's roll matches the claimed
formula with the uniform roll u = 6. -/
theorem c10_roll_amended_witness :
    (calculateMiningReward scRange 1 false rngHi).1.coins = specCycleCoins scRange 1 6 := by
  rw [(c10_roll_amended scRange 1 rngHi (by decide) (by decide) (by decide)
    (by decide)).1]
  decide

end Miner
